import Mathlib

/-!
A verification development for the pi-replicant repository: a shallow
embedding of its tool-call policy checker, the execution supervisor's
terminal-outcome ("settle") logic, and the Offworld repository resolver,
together with theorems settling the specification's claims about them.

Machine integers of the source (JavaScript numbers used as counters and
budgets) are modelled as `Int`; optionally-present finite/NaN/infinite
JavaScript numbers are modelled by the `JsNum` type with `ℚ` for finite
values.  Node's POSIX `path` module is modelled by explicit
segment-normalisation functions.  Fallible operations return
`Option`/`Except`.
-/

/-! ## JavaScript string primitives -/

/-- The whitespace characters recognised by JavaScript's `trim` and `\s`
(the common subset that can appear in tool arguments). -/
def jsWhitespace (c : Char) : Bool :=
  c = ' ' ∨ c = '\t' ∨ c = '\n' ∨ c = '\r' ∨ c = '\x0b' ∨ c = '\x0c' ∨
    c = ' ' ∨ c = ' ' ∨ c = ' '

/-- JavaScript `String.prototype.trim`: drop leading and trailing whitespace. -/
def jsTrim (s : String) : String :=
  String.mk (((s.data.dropWhile jsWhitespace).reverse.dropWhile jsWhitespace).reverse)

/-- JavaScript `String.prototype.split` with a one-character separator,
on the character list of the string.  Always returns at least one piece. -/
def splitChar (c : Char) : List Char → List (List Char)
  | [] => [[]]
  | x :: xs =>
    let rest := splitChar c xs
    if x = c then [] :: rest
    else
      match rest with
      | [] => [[x]]
      | s :: tail => (x :: s) :: tail

/-- Rejoin the pieces produced by `splitChar` with the separator. -/
def joinSep (c : Char) : List (List Char) → List Char
  | [] => []
  | [p] => p
  | p :: ps => p ++ c :: joinSep c ps

/-- Truthiness of an optional JavaScript string (`undefined` and `""` are falsy). -/
def truthy : Option String → Bool
  | some v => v ≠ ""
  | none => false

/-! ## Node `path` module (POSIX), as used by the policy checker

`path.isAbsolute`, `path.resolve`, `path.relative` and `path.join` are
modelled on POSIX semantics.  `path.resolve` consults `process.cwd()` when
every argument is relative; that ambient state is modelled as the root
directory `/`, which is exact whenever the supervisor is given an absolute
working directory (the only situation the claims exercise). -/

/-- JavaScript `String.prototype.startsWith` / Lean `String.startsWith`, computed on
the character lists (the core byte-position loop does not reduce in the
kernel). -/
def strStartsWith (s pre : String) : Bool := pre.data.isPrefixOf s.data

/-- JavaScript `String.prototype.endsWith` on character lists. -/
def strEndsWith (s suf : String) : Bool := suf.data.reverse.isPrefixOf s.data.reverse

def jsIsAbsolute (s : String) : Bool := strStartsWith s "/"

/-- Split a path into `/`-separated raw segments (empty segments included). -/
def splitSegs (s : String) : List String :=
  (splitChar '/' s.data).map String.mk

/-- One step of Node path normalisation over an accumulator kept in reverse
order: empty and `.` segments are dropped; `..` pops a real segment, is
dropped at the root of an absolute path, and is kept in a relative path. -/
def normStep (abs : Bool) (acc : List String) (seg : String) : List String :=
  if seg = "" ∨ seg = "." then acc
  else if seg = ".." then
    match acc with
    | [] => if abs then [] else [".."]
    | a :: rest => if a = ".." then ".." :: a :: rest else rest
  else seg :: acc

/-- Normalise a segment list as Node's path normalisation does. -/
def normalizeSegs (abs : Bool) (segs : List String) : List String :=
  (segs.foldl (normStep abs) []).reverse

/-- Node `path.resolve(cwd, p)` (POSIX): `p` wins if absolute, otherwise it
is joined onto `cwd`; the result is always absolute (see the module note on
`process.cwd()`). -/
def pathResolve (cwd p : String) : String :=
  let segs :=
    if jsIsAbsolute p then normalizeSegs true (splitSegs p)
    else normalizeSegs true (splitSegs cwd ++ splitSegs p)
  "/" ++ String.intercalate "/" segs

/-- Segments of a path once resolved to absolute form. -/
def resolvedSegs (s : String) : List String :=
  normalizeSegs true (splitSegs s)

/-- Length of the longest common prefix of two segment lists. -/
def commonPrefixLen : List String → List String → Nat
  | a :: as, b :: bs => if a = b then commonPrefixLen as bs + 1 else 0
  | _, _ => 0

/-- Node `path.relative(from, to)` (POSIX). -/
def pathRelative (p q : String) : String :=
  let f := resolvedSegs p
  let t := resolvedSegs q
  let k := commonPrefixLen f t
  let up := List.replicate (f.length - k) ".."
  String.intercalate "/" (up ++ t.drop k)

/-- Node `path.join(a, b)` (POSIX). -/
def pathJoin (a b : String) : String :=
  let joined := if a = "" then b else if b = "" then a else a ++ "/" ++ b
  if joined = "" then "."
  else
    let abs := jsIsAbsolute joined
    let core := String.intercalate "/" (normalizeSegs abs (splitSegs joined))
    if abs then "/" ++ core
    else if core = "" then "." else core

/-! ## Tool-call policy checker (src/unnamed/part_001, lines 99-201) -/

/-- Type `ResolvedScope` (part_001:99): absolute allowed roots/files anchored at `cwd`. -/
structure ResolvedScope where
  cwd : String
  allowedRoots : List String
  allowedFiles : List String
deriving DecidableEq

/-- The string-typed fields of a tool call's argument object that the policy
checker reads; a field holding a non-string value is modelled as absent. -/
structure ToolInput where
  path : Option String
  file_path : Option String
  pattern : Option String
  glob : Option String
deriving DecidableEq

/-- The tool-call argument object with no usable fields (also the image of a
non-object input under `normalizeToolInput`, part_001:159). -/
def emptyToolInput : ToolInput := ⟨none, none, none, none⟩

/-- Type `ToolCallPolicyInput` (part_001:112). -/
structure ToolCallPolicyInput where
  toolName : String
  input : ToolInput
  turnIndex : Int
  toolCalls : Int
  maxTurns : Int
  maxToolCalls : Int
  scope : ResolvedScope
deriving DecidableEq

/-- Function `normalizeToolPath` (part_001:122): trim, then strip one leading `@`. -/
def normalizeToolPath (input : String) : String :=
  let t := jsTrim input
  if strStartsWith t "@" then String.mk (t.data.drop 1) else t

/-- Function `isWithinPath` (part_001:126). -/
def isWithinPath (targetPath rootPath : String) : Bool :=
  let relative := pathRelative rootPath targetPath
  relative = "" ∨ (¬ strStartsWith relative ".." ∧ ¬ jsIsAbsolute relative)

/-- Function `hasUnsafeGlobSegments` (part_001:131): backslashes become slashes, the
result is trimmed; an empty pattern is safe, an absolute one is not, nor is
one with a `..` segment. -/
def hasUnsafeGlobSegments (pattern : String) : Bool :=
  let replaced := String.mk (pattern.data.map fun c => if c = '\\' then '/' else c)
  let normalized := jsTrim replaced
  if normalized = "" then false
  else if jsIsAbsolute normalized then true
  else ((splitChar '/' normalized.data).map String.mk).any (· = "..")

/-- The turn-budget violation message (part_001:166-168). -/
def turnBudgetMessage (turnIndex maxTurns : Int) : String :=
  let humanTurn := min (turnIndex + 1) maxTurns
  s!"Replicant subagent turn budget exceeded ({humanTurn}/{maxTurns}) before producing a final answer."

/-- The tool-call-budget violation message (part_001:171-172). -/
def toolCallBudgetMessage (toolCalls maxToolCalls : Int) : String :=
  s!"Replicant subagent tool call budget exceeded ({toolCalls}/{maxToolCalls}). Narrow the task for focused exploration."

/-- The out-of-scope find-pattern violation message (part_001:187). -/
def findPatternMessage (pattern : String) : String :=
  s!"Replicant subagent attempted out-of-scope find pattern: {pattern}. Parent-directory and absolute patterns are not allowed."

/-- The out-of-scope grep-glob violation message (part_001:191). -/
def grepGlobMessage (glob : String) : String :=
  s!"Replicant subagent attempted out-of-scope grep glob: {glob}. Parent-directory and absolute globs are not allowed."

/-- The out-of-scope path violation message (part_001:200). -/
def outOfScopeMessage (toolName rawPath : String)
    (allowedRoots allowedFiles : List String) : String :=
  let roots := String.intercalate ", " allowedRoots
  let files0 := String.intercalate ", " allowedFiles
  let files := if files0 = "" then "(none)" else files0
  s!"Replicant subagent attempted out-of-scope {toolName} path: {rawPath}. Allowed roots: {roots}. Allowed files: {files}."

/-- The path-sensitive tools (part_001:175). -/
def policyTools : List String := ["read", "grep", "find", "ls"]

/-- The raw path argument: field `path` if it is a string, else `file_path`,
else `"."` (part_001:179-184). -/
def rawPathOf (input : ToolInput) : String :=
  match input.path with
  | some p => p
  | none =>
    match input.file_path with
    | some p => p
    | none => "."

/-- The offending find pattern, when the tool is `find`, a string pattern is
present, and it has unsafe glob segments (part_001:186). -/
def badFindPattern (toolName : String) (pattern : Option String) : Option String :=
  if toolName = "find" then
    match pattern with
    | some p => if hasUnsafeGlobSegments p then some p else none
    | none => none
  else none

/-- The offending grep glob, when the tool is `grep`, a string glob is
present, and it has unsafe glob segments (part_001:190). -/
def badGrepGlob (toolName : String) (glob : Option String) : Option String :=
  if toolName = "grep" then
    match glob with
    | some g => if hasUnsafeGlobSegments g then some g else none
    | none => none
  else none

/-- Function `getToolCallPolicyViolation` (part_001:163-201). -/
def getToolCallPolicyViolation (o : ToolCallPolicyInput) : Option String :=
  if o.maxTurns - 1 ≤ o.turnIndex then
    some (turnBudgetMessage o.turnIndex o.maxTurns)
  else if o.maxToolCalls ≤ o.toolCalls then
    some (toolCallBudgetMessage o.toolCalls o.maxToolCalls)
  else if ¬ policyTools.contains o.toolName then none
  else if o.scope.allowedRoots = [] ∧ o.scope.allowedFiles = [] then none
  else
    let rawPath := rawPathOf o.input
    match badFindPattern o.toolName o.input.pattern with
    | some p => some (findPatternMessage p)
    | none =>
      match badGrepGlob o.toolName o.input.glob with
      | some g => some (grepGlobMessage g)
      | none =>
        let resolvedPath := pathResolve o.scope.cwd (normalizeToolPath rawPath)
        let allowedByRoot := o.scope.allowedRoots.any fun root => isWithinPath resolvedPath root
        let allowedByFile := o.scope.allowedFiles.any fun file => resolvedPath == file
        if allowedByRoot || allowedByFile then none
        else some (outOfScopeMessage o.toolName rawPath o.scope.allowedRoots o.scope.allowedFiles)

/-! ## Policy-enforcement hook (src/unnamed/part_001, lines 203-246)

The `tool_call` handler installed by `createPolicyExtension` is modelled as
a pure state-transition function: it consumes the mutable `policyState` and
produces the updated state together with the handler's observable effects
(whether the call was blocked, the reason given, and whether `ctx.abort()`
was requested). -/

/-- Type `ReplicantPolicyState` (part_001:105). -/
structure ReplicantPolicyState where
  turnIndex : Int
  toolCalls : Int
  violation : Option String
  turnBudgetBlocked : Option String
deriving DecidableEq

/-- The observable outcome of one `tool_call` hook invocation. -/
structure HookDecision where
  block : Bool
  reason : Option String
  abortRequested : Bool
deriving DecidableEq

/-- The `tool_call` handler of `createPolicyExtension` (part_001:214-244). -/
def toolCallHook (scope : ResolvedScope) (maxTurns maxToolCalls : Int)
    (st : ReplicantPolicyState) (toolName : String) (input : ToolInput) :
    ReplicantPolicyState × HookDecision :=
  let violation := getToolCallPolicyViolation
    ⟨toolName, input, st.turnIndex, st.toolCalls, maxTurns, maxToolCalls, scope⟩
  match violation with
  | some v =>
    if maxTurns - 1 ≤ st.turnIndex then
      ({ st with turnBudgetBlocked := some (st.turnBudgetBlocked.getD v) },
       ⟨true, some v, false⟩)
    else
      ({ st with violation := some (st.violation.getD v) },
       ⟨true, some v, true⟩)
  | none =>
    ({ st with toolCalls := st.toolCalls + 1 }, ⟨false, none, false⟩)

/-! ## Supervisor settle logic (src/unnamed/part_001, lines 350-562)

`runReplicantSubprocess` is asynchronous and event-driven; the part the
claims are about is straight-line code, modelled here as pure functions:

* the computation of the effective budgets (lines 353-359) and the initial
  `details` record (lines 361-375);
* the choice of terminal outcome once the session's `prompt` call has
  settled (lines 494-555).

`truncateHead` and the `DEFAULT_MAX_BYTES`/`DEFAULT_MAX_LINES` ceilings are
imported from the external `pi-coding-agent` package, so they are modelled
from the spec (see `truncateHead` below); the ceilings are kept as explicit
parameters. -/

/-- A JavaScript number as it can arrive in the options object: NaN,
an infinity, or a finite value (modelled as a rational). -/
inductive JsNum
  | nan
  | posInf
  | negInf
  | fin (q : ℚ)
deriving DecidableEq

/-- Constant `DEFAULT_MAX_TURNS` (part_001:19). -/
def DEFAULT_MAX_TURNS : Int := 8

/-- Constant `DEFAULT_MAX_TOOL_CALLS` (part_001:20). -/
def DEFAULT_MAX_TOOL_CALLS : Int := 40

/-- The effective budget computation (part_001:353-359): a number that is
finite and strictly positive is floored; anything else (absent, NaN,
infinite, zero or negative) falls back to the default. -/
def effectiveBudget (requested : Option JsNum) (deflt : Int) : Int :=
  match requested with
  | some (.fin q) => if 0 < q then q.floor else deflt
  | some _ => deflt
  | none => deflt

/-- The effective `maxTurns` (part_001:353-354). -/
def effectiveMaxTurns (maxTurns : Option JsNum) : Int :=
  effectiveBudget maxTurns DEFAULT_MAX_TURNS

/-- The effective `maxToolCalls` (part_001:356-359). -/
def effectiveMaxToolCalls (maxToolCalls : Option JsNum) : Int :=
  effectiveBudget maxToolCalls DEFAULT_MAX_TOOL_CALLS

/-- Type `ReplicantPhase` (part_001:30). -/
inductive ReplicantPhase
  | booting
  | exploring
  | writing
  | done
  | error
  | aborted
deriving DecidableEq

/-- The fields of the initial `details` record (part_001:361-375) that the
claims observe. -/
structure DetailsInit where
  phase : ReplicantPhase
  message : String
  toolCalls : Int
  toolErrors : Int
  turns : Int
  maxTurns : Int
  maxToolCalls : Int
deriving DecidableEq

/-- The initial `details` record built by `runReplicantSubprocess`
(part_001:361-375). -/
def initialDetails (maxTurns maxToolCalls : Option JsNum) : DetailsInit :=
  { phase := .booting
    message := "starting subagent"
    toolCalls := 0
    toolErrors := 0
    turns := 0
    maxTurns := effectiveMaxTurns maxTurns
    maxToolCalls := effectiveMaxToolCalls maxToolCalls }

/-- The budgets handed to the session factory, and through it to
`createPolicyExtension` (part_001:403-413 and 319). -/
def factoryBudgets (maxTurns maxToolCalls : Option JsNum) : Int × Int :=
  (effectiveMaxTurns maxTurns, effectiveMaxToolCalls maxToolCalls)

/-! ### Head truncation of the final text -/

/-- UTF-8 byte length of a character list. -/
def utf8LenL (l : List Char) : Nat := (l.map Char.utf8Size).sum

/-- UTF-8 byte length of a string. -/
def utf8Len (s : String) : Nat := utf8LenL s.data

/-- The maximal prefix of a character list whose UTF-8 length fits in `n`
bytes. -/
def takeBytesAux : List Char → Nat → List Char
  | [], _ => []
  | c :: cs, n => if c.utf8Size ≤ n then c :: takeBytesAux cs (n - c.utf8Size) else []

/-- Number of lines of a string (one more than its newline count). -/
def lineCount (s : String) : Nat := (splitChar '\n' s.data).length

/-- Result of head truncation: the kept content and whether anything was cut. -/
structure TruncateResult where
  content : String
  truncated : Bool
deriving DecidableEq

/-- Modelled from the spec: `truncateHead` of the external
`pi-coding-agent` package (imported at part_001:12 and applied at
part_001:541-544).  Per the spec it truncates text "to a fixed maximum
byte/line ceiling, from the head": text within both ceilings is returned
unmodified and unflagged; otherwise the first `maxLines` lines are kept and
clamped to a `maxBytes`-byte UTF-8 prefix, and the result is flagged as
truncated. -/
def truncateHead (s : String) (maxBytes maxLines : Nat) : TruncateResult :=
  let pieces := splitChar '\n' s.data
  if pieces.length ≤ maxLines ∧ utf8LenL s.data ≤ maxBytes then ⟨s, false⟩
  else
    let kept := joinSep '\n' (pieces.take maxLines)
    ⟨String.mk (takeBytesAux kept maxBytes), true⟩

/-! ### Terminal-outcome selection -/

/-- The state of the run at the moment the session's `prompt` call has
settled and the session's message log has been consulted (part_001:477-492):
the recorded policy state, the cancellation flag, any exception thrown by
`prompt`, the last assistant text, and the captured stop reason and error
message. -/
structure SettledState where
  violation : Option String
  abortedBySignal : Bool
  promptError : Option String
  finalText : String
  turnBudgetBlocked : Option String
  stopReason : Option String
  errorMessage : Option String
deriving DecidableEq

/-- A terminal outcome of `runReplicantSubprocess`: either a raised error
carrying the terminal phase, the exit code and the error message, or
completion with the final output, the truncation flag and the exit code. -/
inductive RunOutcome
  | failed (phase : ReplicantPhase) (exitCode : Int) (message : String)
  | completed (finalText : String) (finalTextTruncated : Bool) (exitCode : Int)
deriving DecidableEq

/-- The `stopReason=error` message (part_001:524-528); the recorded error
message is appended when it is truthy. -/
def stopReasonErrorMessage (errorMessage : Option String) : String :=
  match errorMessage with
  | some m =>
    if m = "" then "Replicant subagent reported stopReason=error."
    else s!"Replicant subagent reported stopReason=error: {m}"
  | none => "Replicant subagent reported stopReason=error."

/-- The `stopReason=aborted` message (part_001:534-538). -/
def stopReasonAbortedMessage (errorMessage : Option String) : String :=
  match errorMessage with
  | some m =>
    if m = "" then "Replicant subagent reported stopReason=aborted."
    else s!"Replicant subagent reported stopReason=aborted: {m}"
  | none => "Replicant subagent reported stopReason=aborted."

/-- The successful tail of the run (part_001:541-555): empty final text is
replaced by `"(no output)"`, the result is head-truncated, and a truncation
marker is appended when the ceiling was exceeded. -/
def successOutcome (maxBytes maxLines : Nat) (finalText : String) : RunOutcome :=
  let base := if finalText = "" then "(no output)" else finalText
  let t := truncateHead base maxBytes maxLines
  if t.truncated then .completed (t.content ++ "\n\n[replicant output truncated]") true 0
  else .completed t.content false 0

/-- The checks following the turn-budget check (part_001:521-555). -/
def settleAfterBudget (maxBytes maxLines : Nat) (s : SettledState) : RunOutcome :=
  if s.stopReason = some "error" then
    .failed .error 1 (stopReasonErrorMessage s.errorMessage)
  else if s.stopReason = some "aborted" then
    .failed .aborted 1 (stopReasonAbortedMessage s.errorMessage)
  else successOutcome maxBytes maxLines s.finalText

/-- The terminal-outcome selection of `runReplicantSubprocess`
(part_001:494-555), run once the prompt call has settled. -/
def settleReplicantRun (maxBytes maxLines : Nat) (s : SettledState) : RunOutcome :=
  match s.violation with
  | some v => .failed .error 1 v
  | none =>
    if s.abortedBySignal then .failed .aborted 1 "Replicant subagent was aborted."
    else
      match s.promptError with
      | some m => .failed .error 1 m
      | none =>
        match s.turnBudgetBlocked with
        | some b =>
          if jsTrim s.finalText = "" then .failed .error 1 b
          else settleAfterBudget maxBytes maxLines s
        | none => settleAfterBudget maxBytes maxLines s

/-- First-applicable-rule evaluation: the outcome of the first rule whose
condition holds, else the default. -/
def firstRule : List (Bool × RunOutcome) → RunOutcome → RunOutcome
  | [], deflt => deflt
  | (c, o) :: rest, deflt => if c then o else firstRule rest deflt

/-- The terminal-outcome priority order exactly as the spec words it
(spec §4.3, items 1-7), for comparison with `settleReplicantRun`. -/
def specSettlePriority (maxBytes maxLines : Nat) (s : SettledState) : RunOutcome :=
  firstRule
    [ (s.violation.isSome, .failed .error 1 (s.violation.getD "")),
      (s.abortedBySignal, .failed .aborted 1 "Replicant subagent was aborted."),
      (s.promptError.isSome, .failed .error 1 (s.promptError.getD "")),
      (decide (jsTrim s.finalText = "") && s.turnBudgetBlocked.isSome,
        .failed .error 1 (s.turnBudgetBlocked.getD "")),
      (s.stopReason = some "error", .failed .error 1 (stopReasonErrorMessage s.errorMessage)),
      (s.stopReason = some "aborted", .failed .aborted 1 (stopReasonAbortedMessage s.errorMessage)) ]
    (successOutcome maxBytes maxLines s.finalText)

/-! ## Offworld repository resolver (src/unnamed/part_000)

`resolveRepoWithOffworld` drives the external Offworld CLI (`ow`) and the
filesystem.  Those external collaborators are modelled as an `OwWorld` of
pure oracles.  The map can change when a repository is pulled, and the
function queries it at most once before and once after the single possible
pull, so the world carries two snapshots of the `map show` oracle and of
the filesystem (`show1`/`stat1` before the pull, `show2`/`stat2` after).

Hint extraction (`extractRepoHintFromTask`, part_000:221) is regex-driven
and feeds the resolver only through the value `repoHint ??
extractRepoHintFromTask(task)`; the embedding takes that already-combined
value as the `hint0` argument. -/

/-- What `fs.stat` reports for a path: a regular file, a directory, some
other kind of entry, or (for `none`) a stat failure. -/
inductive FileKind
  | file
  | dir
  | other
deriving DecidableEq

/-- Type `MapShowJson` (part_000:12), restricted to the fields the resolver
reads. -/
structure MapShowJson where
  found : Bool
  scope : Option String
  qualifiedName : Option String
  localPath : Option String
  referencePath : Option String
deriving DecidableEq

/-- One entry of `MapSearchJson` (part_000:22).  The opaque relevance score
(a JSON number used only for ranking and display) is modelled as an `Int`. -/
structure SearchCandidate where
  qualifiedName : String
  fullName : String
  localPath : String
  primary : String
  keywords : List String
  score : Int
deriving DecidableEq

/-- The result of one external `ow` invocation that is expected to print
JSON: the command can fail, its output can fail to parse, or it yields a
parsed value. -/
inductive OwCall (α : Type)
  | execFail
  | parseFail
  | ok (value : α)
deriving DecidableEq

/-- The error codes of `ReplicantOffworldError` (part_000:51-67). -/
inductive OwErrorCode
  | ow_missing
  | repo_unresolved
  | repo_ambiguous
  | missing_assets
  | pull_rejected
  | pull_failed
  | invalid_map
deriving DecidableEq

/-- Type `ReplicantOffworldError` (part_000:51), restricted to its message, code
and remediation text (the free-form `details` payload is not modelled). -/
structure OwError where
  message : String
  code : OwErrorCode
  remediation : Option String
deriving DecidableEq

/-- The external world the resolver runs against: the `ow` CLI (version
check, map search, map show before/after the pull, pull) and the host
(filesystem stat before/after the pull, UI capability and responses). -/
structure OwWorld where
  owOk : Bool
  searchResult : String → OwCall (List SearchCandidate)
  show1 : String → OwCall MapShowJson
  show2 : String → OwCall MapShowJson
  stat1 : String → Option FileKind
  stat2 : String → Option FileKind
  pullOk : String → Bool
  hasUI : Bool
  confirmPull : Bool
  selectPick : List String → Option String

/-- Function `pathIsDir` (part_000:80) against a filesystem snapshot. -/
def pathIsDir (stat : String → Option FileKind) (p : String) : Bool :=
  match stat p with
  | some .dir => true
  | _ => false

/-- Function `pathIsFile` (part_000:88) against a filesystem snapshot. -/
def pathIsFile (stat : String → Option FileKind) (p : String) : Bool :=
  match stat p with
  | some .file => true
  | _ => false

/-- Function `pathLooksLikeClone` (part_000:96): a directory whose `.git` entry is a
directory or a file. -/
def pathLooksLikeClone (stat : String → Option FileKind) (repoPath : String) : Bool :=
  if ¬ pathIsDir stat repoPath then false
  else
    match stat (pathJoin repoPath ".git") with
    | some .dir => true
    | some .file => true
    | _ => false

/-- The argument of `toRepoSlug` (part_000:108): a search entry carries a
`fullName`; a show entry carries only an optional `qualifiedName`. -/
inductive SlugSource
  | fromSearch (fullName : String)
  | fromShow (qualifiedName : Option String)
deriving DecidableEq

/-- Function `toRepoSlug` (part_000:108-113): an explicit full name wins; otherwise
the qualified name is split on `:` and element 1 of the split is taken when
a colon is present. -/
def toRepoSlug : SlugSource → String
  | .fromSearch fullName => fullName
  | .fromShow q? =>
    let q := q?.getD ""
    if q.data.contains ':' then
      match (splitChar ':' q.data).get? 1 with
      | some seg => String.mk seg
      | none => q
    else q

/-- Function `extractSearchTerm` (part_000:194-199): trim, collapse whitespace runs
to single spaces, and keep the first 120 units. -/
def extractSearchTerm (task : String) : String :=
  let t := jsTrim task
  String.mk ((collapseWs false t.data).take 120)
where
  /-- JavaScript `replace(/\s+/g, " ")`: the flag records whether the previous
  character was whitespace. -/
  collapseWs : Bool → List Char → List Char
    | _, [] => []
    | prevWs, c :: cs =>
      if jsWhitespace c then
        if prevWs then collapseWs true cs else ' ' :: collapseWs true cs
      else c :: collapseWs false cs

/-- The label shown for a candidate in the UI picker (part_000:248-251). -/
def candidateLabel (c : SearchCandidate) : String :=
  let fullName := c.fullName
  let score := c.score
  s!"{fullName} (score {score})"

/-- Whether a character list matches the regex `\s+\(score [^)]+\)\s*` in
full (the label-suffix stripped by `selectCandidate`, part_000:265). -/
def isScoreSuffix (cs : List Char) : Bool :=
  let ws := cs.takeWhile jsWhitespace
  if ws.length = 0 then false
  else
    let rest := cs.drop ws.length
    if rest.take 7 = "(score ".data then
      let body := rest.drop 7
      let inner := body.takeWhile (· ≠ ')')
      if inner.length = 0 then false
      else
        match body.drop inner.length with
        | ')' :: tail => tail.all jsWhitespace
        | _ => false
    else false

/-- Drop everything from the leftmost position where the score-suffix
pattern matches through to the end of the list. -/
def stripScoreSuffixAux : List Char → List Char
  | [] => []
  | c :: rest => if isScoreSuffix (c :: rest) then [] else c :: stripScoreSuffixAux rest

/-- The replacement `picked.replace(/\s+\(score [^)]+\)\s*$/, "")` (part_000:265). -/
def stripScoreSuffix (s : String) : String :=
  String.mk (stripScoreSuffixAux s.data)

/-- The error raised by `selectCandidate` when several candidates exist and
no UI is available (part_000:279-287). -/
def ambiguousNonInteractiveError : OwError :=
  { message := "Multiple Offworld map matches found; repository is ambiguous in non-interactive mode."
    code := .repo_ambiguous
    remediation := some "Re-run with an explicit `repo` value (e.g. `repo: \"owner/repo\"`)." }

/-- Function `selectCandidate` (part_000:240-287): one candidate short-circuits;
with UI the picked label is matched exactly, then by stripping the score
suffix; without UI several candidates are ambiguous. -/
def selectCandidate (hasUI : Bool) (selectPick : List String → Option String)
    (candidates : List SearchCandidate) : Except OwError SearchCandidate :=
  if h : candidates.length = 1 then
    .ok (candidates.get ⟨0, by omega⟩)
  else
    let maxN := min 6 candidates.length
    let top := candidates.take maxN
    if hasUI then
      let labels := top.map candidateLabel
      match selectPick labels with
      | none =>
        .error ⟨"Repository selection canceled.", .repo_unresolved,
          some "Re-run with an explicit `repo` value."⟩
      | some picked =>
        match top.find? fun c => candidateLabel c = picked with
        | some c => .ok c
        | none =>
          let pickedRepo := stripScoreSuffix picked
          match top.find? fun c => c.fullName = pickedRepo with
          | some c => .ok c
          | none =>
            .error ⟨"Repository selection did not match available candidates.", .repo_ambiguous,
              some "Re-run with an explicit `repo` value."⟩
    else .error ambiguousNonInteractiveError

/-- Function `mapSearch` (part_000:176-192) against the world's search oracle: a
failed invocation or unparseable output raises `invalid_map`. -/
def mapSearchW (w : OwWorld) (term : String) : Except OwError (List SearchCandidate) :=
  match w.searchResult term with
  | .execFail => .error ⟨s!"Failed to run ow map search {term} --json.", .invalid_map, none⟩
  | .parseFail => .error ⟨s!"Failed to parse JSON from ow map search {term} --json.", .invalid_map, none⟩
  | .ok v => .ok v

/-- Function `mapShow` (part_000:158-174) against a `map show` oracle snapshot. -/
def mapShowW (showOracle : String → OwCall MapShowJson) (repo : String) :
    Except OwError MapShowJson :=
  match showOracle repo with
  | .execFail => .error ⟨s!"Failed to run ow map show {repo} --json.", .invalid_map, none⟩
  | .parseFail => .error ⟨s!"Failed to parse JSON from ow map show {repo} --json.", .invalid_map, none⟩
  | .ok v => .ok v

/-- Function `buildPullArgs` (part_000:289). -/
def buildPullArgs (repo : String) : List String := ["pull", repo, "--clone-only"]

/-- Function `formatOwCommand` (part_000:293). -/
def formatOwCommand (args : List String) : String :=
  let joined := String.intercalate " " args
  s!"ow {joined}"

/-- The search branch of the resolver (part_000:326-342): search the map,
record the candidates, fail on zero matches, otherwise disambiguate. -/
def resolveViaSearch (w : OwWorld) (task : String) :
    Except OwError (String × List (String × Int)) :=
  let term := extractSearchTerm task
  match mapSearchW w term with
  | .error e => .error e
  | .ok found =>
    let cands := found.map fun m => (m.fullName, m.score)
    if found.length = 0 then
      .error ⟨"No Offworld map matches found for this task.", .repo_unresolved,
        some "Pull a repository first, e.g. `ow pull owner/repo --clone-only`, then retry with `repo: \"owner/repo\"`."⟩
    else
      match selectCandidate w.hasUI w.selectPick found with
      | .error e => .error e
      | .ok selected => .ok (selected.fullName, cands)

/-- The missing-assets branch (part_000:364-384): confirm interactively
when a UI exists (declining is fatal), pull, then re-query the map.  The
returned flag records that the pull happened. -/
def pullStage (w : OwWorld) (effectiveRepo : String) :
    Except OwError (MapShowJson × Bool) :=
  if w.hasUI && !w.confirmPull then
    .error ⟨s!"Pull canceled for {effectiveRepo}.", .pull_rejected,
      some s!"Run manually: ow pull {effectiveRepo} --clone-only"⟩
  else if !w.pullOk effectiveRepo then
    let pullCommand := formatOwCommand (buildPullArgs effectiveRepo)
    .error ⟨s!"Failed to pull {effectiveRepo}.", .pull_failed, some s!"Run manually: {pullCommand}"⟩
  else
    match mapShowW w.show2 effectiveRepo with
    | .error e => .error e
    | .ok entry2 => .ok (entry2, true)

/-- The `resolvedFrom` values of `ResolvedRepo` (part_000:47). -/
inductive ResolvedFrom
  | existing
  | pulled
deriving DecidableEq

/-- Type `ResolvedRepo` (part_000:41); `searchCandidates` keeps the
`{ repo, score }` pairs. -/
structure ResolvedRepo where
  repo : String
  qualifiedName : String
  scope : String
  clonePath : String
  referencePath : String
  resolvedFrom : ResolvedFrom
  searchCandidates : List (String × Int)
deriving DecidableEq

/-- The final validation and construction of the resolver's result
(part_000:385-410): the clone must exist and look like a clone; a
reference path is kept only when it is non-empty, does not end in a path
separator, and stats as a regular file — otherwise it is silently replaced
by the empty string. -/
def finalizeResolvedRepo (stat : String → Option FileKind) (entry : MapShowJson)
    (effectiveRepo : String) (resolvedFrom : ResolvedFrom)
    (searchCandidates : List (String × Int)) : Except OwError ResolvedRepo :=
  let clonePath := entry.localPath.getD ""
  let referencePath := entry.referencePath.getD ""
  let cloneOk := clonePath.length > 0 && pathLooksLikeClone stat clonePath
  let referenceOk := referencePath.length > 0 &&
    !strEndsWith referencePath "/" && !strEndsWith referencePath "\\" &&
    pathIsFile stat referencePath
  let resolvedReferencePath := if referenceOk then referencePath else ""
  if !cloneOk then
    .error ⟨s!"Offworld map entry is incomplete after resolution for {effectiveRepo}. clone={cloneOk}",
      .missing_assets, some s!"Run: ow pull {effectiveRepo} --clone-only"⟩
  else
    .ok { repo := effectiveRepo
          qualifiedName := entry.qualifiedName.getD ("github.com:" ++ effectiveRepo)
          scope := entry.scope.getD "unknown"
          clonePath := clonePath
          referencePath := resolvedReferencePath
          resolvedFrom := resolvedFrom
          searchCandidates := searchCandidates }

/-- Function `resolveRepoWithOffworld` (part_000:317-411).  `hint0` is the value of
`repoHint ?? extractRepoHintFromTask(task)` (part_000:323). -/
def resolveRepoWithOffworld (w : OwWorld) (task : String) (hint0 : Option String) :
    Except OwError ResolvedRepo :=
  if ¬ w.owOk then
    .error ⟨"Offworld CLI (`ow`) is not available.", .ow_missing,
      some "Install Offworld: curl -fsSL https://offworld.sh/install | bash"⟩
  else
    let determined : Except OwError (String × List (String × Int)) :=
      if truthy hint0 then .ok (hint0.getD "", []) else resolveViaSearch w task
    match determined with
    | .error e => .error e
    | .ok (selectedRepo, searchCandidates) =>
      if selectedRepo = "" then
        .error ⟨"Repository could not be determined.", .repo_unresolved, none⟩
      else
        match mapShowW w.show1 selectedRepo with
        | .error e => .error e
        | .ok entry1 =>
          if ¬ entry1.found then
            .error ⟨s!"Repository not found in Offworld map: {selectedRepo}", .repo_unresolved,
              some s!"Run: ow pull {selectedRepo} --clone-only"⟩
          else
            let effectiveRepo := toRepoSlug (.fromShow entry1.qualifiedName)
            let hasClone :=
              match entry1.localPath with
              | some lp => if lp = "" then false else pathLooksLikeClone w.stat1 lp
              | none => false
            let afterAssets : Except OwError (MapShowJson × Bool) :=
              if hasClone then .ok (entry1, false) else pullStage w effectiveRepo
            match afterAssets with
            | .error e => .error e
            | .ok (entry, pulled) =>
              finalizeResolvedRepo (if pulled then w.stat2 else w.stat1) entry effectiveRepo
                (if pulled then .pulled else .existing) searchCandidates

/-! ## Claim-side comparison definitions and concrete test fixtures -/

/-- The derivation rule as the spec words it: the segment of a qualified
name after its last `:`. -/
def lastColonSegment (q : String) : String :=
  String.mk ((q.data.reverse.takeWhile (· ≠ ':')).reverse)

/-- The derivation rule the source implements: the segment of a qualified
name strictly between its first `:` and the following `:` (if any). -/
def afterFirstColonSegment (q : String) : String :=
  String.mk (((q.data.dropWhile (· ≠ ':')).drop 1).takeWhile (· ≠ ':'))

/-- Map the parsed value of an external call. -/
def OwCall.map (f : α → β) : OwCall α → OwCall β
  | .execFail => .execFail
  | .parseFail => .parseFail
  | .ok v => .ok (f v)

/-- Replace the reference path reported by both `map show` snapshots of a
world, leaving everything else (search results, clone paths, filesystem,
UI) unchanged. -/
def setRefPath (w : OwWorld) (f : String → Option String) : OwWorld :=
  { w with
    show1 := fun repo => (w.show1 repo).map fun m => { m with referencePath := f repo }
    show2 := fun repo => (w.show2 repo).map fun m => { m with referencePath := f repo } }

/-- A concrete high-scored search candidate. -/
def candA : SearchCandidate :=
  { qualifiedName := "github.com:tanstack/pacer"
    fullName := "tanstack/pacer"
    localPath := "/repos/tanstack/pacer"
    primary := "README.md"
    keywords := ["pacer"]
    score := 97 }

/-- A concrete low-scored search candidate. -/
def candB : SearchCandidate :=
  { qualifiedName := "github.com:acme/pacer-fork"
    fullName := "acme/pacer-fork"
    localPath := "/repos/acme/pacer-fork"
    primary := "README.md"
    keywords := ["pacer"]
    score := 11 }

/-- A non-interactive world whose map search finds two candidates. -/
def twoCandidateWorld : OwWorld where
  owOk := true
  searchResult := fun _ => .ok [candA, candB]
  show1 := fun _ => .execFail
  show2 := fun _ => .execFail
  stat1 := fun _ => none
  stat2 := fun _ => none
  pullOk := fun _ => false
  hasUI := false
  confirmPull := true
  selectPick := fun _ => none

/-- A non-interactive world whose map search finds exactly one candidate. -/
def oneCandidateWorld : OwWorld where
  owOk := true
  searchResult := fun _ => .ok [candA]
  show1 := fun _ => .execFail
  show2 := fun _ => .execFail
  stat1 := fun _ => none
  stat2 := fun _ => none
  pullOk := fun _ => false
  hasUI := false
  confirmPull := true
  selectPick := fun _ => none

/-- A filesystem with one clone at `/repo` and one regular file
`/repo/REF.md`. -/
def cloneStat : String → Option FileKind := fun p =>
  if p = "/repo" then some .dir
  else if p = "/repo/.git" then some .dir
  else if p = "/repo/REF.md" then some .file
  else none

/-- A world in which `acme/repo` is already cloned at `/repo` with reference
document `/repo/REF.md`. -/
def clonedWorld : OwWorld where
  owOk := true
  searchResult := fun _ => .ok []
  show1 := fun _ =>
    .ok ⟨true, some "github", some "github.com:acme/repo", some "/repo", some "/repo/REF.md"⟩
  show2 := fun _ =>
    .ok ⟨true, some "github", some "github.com:acme/repo", some "/repo", some "/repo/REF.md"⟩
  stat1 := cloneStat
  stat2 := cloneStat
  pullOk := fun _ => true
  hasUI := false
  confirmPull := true
  selectPick := fun _ => none

/-- The resolution `clonedWorld` produces for the hint `acme/repo`. -/
def clonedWorldResult : ResolvedRepo :=
  { repo := "acme/repo"
    qualifiedName := "github.com:acme/repo"
    scope := "github"
    clonePath := "/repo"
    referencePath := "/repo/REF.md"
    resolvedFrom := .existing
    searchCandidates := [] }

/-! ## Library lemmas about the string primitives -/

theorem splitChar_ne_nil (c : Char) (l : List Char) : splitChar c l ≠ [] := by
  cases l with
  | nil => simp [splitChar]
  | cons x xs =>
    simp only [splitChar]
    split
    · simp
    · split <;> simp

theorem splitChar_get?_zero (c : Char) (l : List Char) :
    (splitChar c l).get? 0 = some (l.takeWhile (· ≠ c)) := by
  induction l with
  | nil => rfl
  | cons x xs ih =>
    by_cases hx : x = c
    · subst hx
      simp [splitChar, List.takeWhile_cons]
    · cases hrest : splitChar c xs with
      | nil => exact absurd hrest (splitChar_ne_nil c xs)
      | cons s t =>
        have hs : s = xs.takeWhile (· ≠ c) := by
          have h0 := ih
          rw [hrest] at h0
          simpa using h0
        simp [splitChar, hx, hrest, List.takeWhile_cons, hs]

theorem splitChar_get?_one (c : Char) (l : List Char) (h : c ∈ l) :
    (splitChar c l).get? 1 =
      some (((l.dropWhile (· ≠ c)).drop 1).takeWhile (· ≠ c)) := by
  induction l with
  | nil => cases h
  | cons x xs ih =>
    by_cases hx : x = c
    · subst hx
      simpa [splitChar, List.dropWhile_cons] using splitChar_get?_zero x xs
    · have hmem : c ∈ xs := by
        cases h with
        | head => exact absurd rfl hx
        | tail _ hm => exact hm
      cases hrest : splitChar c xs with
      | nil => exact absurd hrest (splitChar_ne_nil c xs)
      | cons s t =>
        have h1 := ih hmem
        rw [hrest] at h1
        simpa [splitChar, hx, hrest, List.dropWhile_cons] using h1

theorem splitChar_length (c : Char) (l : List Char) :
    (splitChar c l).length = l.count c + 1 := by
  induction l with
  | nil => simp [splitChar]
  | cons x xs ih =>
    by_cases hx : x = c
    · subst hx
      simp [splitChar, List.count_cons, ih]
    · cases hrest : splitChar c xs with
      | nil => exact absurd hrest (splitChar_ne_nil c xs)
      | cons s t =>
        have h1 := ih
        rw [hrest] at h1
        simp only [splitChar, if_neg hx, hrest, List.count_cons]
        simp only [List.length_cons] at h1 ⊢
        simpa [hx] using h1

theorem not_mem_of_mem_splitChar (c : Char) (l : List Char) (p : List Char)
    (hp : p ∈ splitChar c l) : c ∉ p := by
  induction l generalizing p with
  | nil =>
    simp [splitChar] at hp
    simp [hp]
  | cons x xs ih =>
    by_cases hx : x = c
    · subst hx
      simp [splitChar] at hp
      rcases hp with h | h
      · simp [h]
      · exact ih p h
    · cases hrest : splitChar c xs with
      | nil => exact absurd hrest (splitChar_ne_nil c xs)
      | cons s t =>
        simp only [splitChar, if_neg hx, hrest, List.mem_cons] at hp
        rcases hp with h | h
        · subst h
          intro hc
          cases hc with
          | head => exact hx rfl
          | tail _ hm =>
            exact ih s (by rw [hrest]; exact List.mem_cons_self s t) hm
        · exact ih p (by rw [hrest]; exact List.mem_cons_of_mem s h)

theorem joinSep_splitChar (c : Char) (l : List Char) :
    joinSep c (splitChar c l) = l := by
  induction l with
  | nil => rfl
  | cons x xs ih =>
    by_cases hx : x = c
    · subst hx
      cases hrest : splitChar x xs with
      | nil => exact absurd hrest (splitChar_ne_nil x xs)
      | cons s t =>
        rw [hrest] at ih
        simp only [splitChar, if_pos rfl, hrest, joinSep]
        simp [ih]
    · cases hrest : splitChar c xs with
      | nil => exact absurd hrest (splitChar_ne_nil c xs)
      | cons s t =>
        rw [hrest] at ih
        cases t with
        | nil =>
          simp only [joinSep] at ih
          simp only [splitChar, if_neg hx, hrest, joinSep, ih]
        | cons t0 ts =>
          simp only [joinSep] at ih
          simp only [splitChar, if_neg hx, hrest, joinSep, List.cons_append, ih]

theorem joinSep_count_eq (c : Char) (ps : List (List Char)) (hne : ps ≠ [])
    (hfree : ∀ p ∈ ps, c ∉ p) : (joinSep c ps).count c = ps.length - 1 := by
  induction ps with
  | nil => exact absurd rfl hne
  | cons p rest ih =>
    cases rest with
    | nil =>
      simp only [joinSep, List.length_cons, List.length_nil]
      rw [List.count_eq_zero.mpr (hfree p (List.mem_cons_self p []))]
    | cons q qs =>
      have h1 := ih (by simp) (fun x hx => hfree x (List.mem_cons_of_mem p hx))
      simp only [joinSep] at h1 ⊢
      rw [List.count_append, List.count_cons]
      rw [List.count_eq_zero.mpr (hfree p (List.mem_cons_self p _)), h1]
      simp

theorem joinSepTakeIsPrefix (c : Char) (ps : List (List Char)) (k : Nat) :
    joinSep c (ps.take k) <+: joinSep c ps := by
  induction ps generalizing k with
  | nil => simp
  | cons p rest ih =>
    cases k with
    | zero => simp [joinSep]
    | succ k =>
      cases rest with
      | nil =>
        simp [joinSep, List.take_nil]
      | cons q qs =>
        cases hk : (q :: qs).take k with
        | nil =>
          have : k = 0 := by
            cases k with
            | zero => rfl
            | succ m => simp [List.take] at hk
          subst this
          simp only [List.take, joinSep]
          exact ⟨c :: joinSep c (q :: qs), rfl⟩
        | cons r rs =>
          have h1 := ih (k := k)
          rw [hk] at h1
          simp only [List.take, hk, joinSep]
          rcases h1 with ⟨tail, htail⟩
          exact ⟨tail, by rw [← htail]; simp⟩

theorem takeBytesAuxIsPrefix (l : List Char) (n : Nat) : takeBytesAux l n <+: l := by
  induction l generalizing n with
  | nil => simp [takeBytesAux]
  | cons x xs ih =>
    simp only [takeBytesAux]
    split
    · exact (List.cons_prefix_cons).mpr ⟨rfl, ih (n - x.utf8Size)⟩
    · simp

theorem utf8LenL_takeBytesAux (l : List Char) (n : Nat) :
    utf8LenL (takeBytesAux l n) ≤ n := by
  induction l generalizing n with
  | nil => simp [takeBytesAux, utf8LenL]
  | cons x xs ih =>
    simp only [takeBytesAux]
    split
    · rename_i h
      simp only [utf8LenL, List.map_cons, List.sum_cons]
      have := ih (n - x.utf8Size)
      simp only [utf8LenL] at this
      omega
    · simp [utf8LenL]

theorem commonPrefixLen_self (l : List String) : commonPrefixLen l l = l.length := by
  induction l with
  | nil => rfl
  | cons a as ih => simp [commonPrefixLen, ih]

theorem pathRelative_self (p : String) : pathRelative p p = "" := by
  unfold pathRelative
  simp only [commonPrefixLen_self, Nat.sub_self, List.replicate_zero, List.nil_append,
    List.drop_length]
  rfl

theorem isWithinPath_self (p : String) : isWithinPath p p = true := by
  simp [isWithinPath, pathRelative_self]

/-! ## C9 -/

/-- C9 counterexample: the claim says the slug is derived "by taking the
segment after the last `:`", so a qualified name with two colons would
yield the text after the second colon.  On the qualified name `a:b:c`
(no full name field present) the code yields `b`, the segment after the
first colon, not the last-colon segment `c`. -/
theorem c9_last_colon_counterexample :
    toRepoSlug (.fromShow (some "a:b:c")) = "b" ∧
      lastColonSegment "a:b:c" = "c" ∧
      toRepoSlug (.fromShow (some "a:b:c")) ≠ lastColonSegment "a:b:c" := by
  refine ⟨by decide, by decide, by decide⟩

/-- C9 (amended): when no explicit full name field is present and the
qualified name contains a `:`, the slug is the segment strictly between the
first `:` and the following `:` (element 1 of the `:`-split); for a
qualified name with exactly one colon this is the segment after that
colon. -/
theorem c9_slug_after_first_colon (q : String) (h : ':' ∈ q.data) :
    toRepoSlug (.fromShow (some q)) = afterFirstColonSegment q := by
  have hc : q.data.contains ':' = true := by
    simpa [List.elem_iff] using h
  simp only [toRepoSlug, afterFirstColonSegment, Option.getD_some, hc, if_true]
  rw [splitChar_get?_one ':' q.data h]

/-- C9 witness: the slug of `github.com:acme/repo` is the segment between
the first colon and the end. -/
theorem c9_slug_after_first_colon_witness :
    toRepoSlug (.fromShow (some "github.com:acme/repo")) =
      afterFirstColonSegment "github.com:acme/repo" :=
  c9_slug_after_first_colon "github.com:acme/repo" (by decide)

/-! ## C3 -/

/-- C3 counterexample: with `toolCalls = maxToolCalls = 5` but
`turnIndex = 10 ≥ maxTurns - 1 = 2`, the checker reports the turn-budget
violation, not the tool-call-budget violation the claim promises. -/
theorem c3_budget_counterexample :
    getToolCallPolicyViolation
        ⟨"read", emptyToolInput, 10, 5, 3, 5, ⟨"/w", [], []⟩⟩ =
      some (turnBudgetMessage 10 3) ∧
      turnBudgetMessage 10 3 ≠ toolCallBudgetMessage 5 5 := by
  refine ⟨rfl, by decide⟩

/-- C3 (amended): for every input with `toolCalls = maxToolCalls` and
`turnIndex < maxTurns - 1` the checker reports the tool-call-budget
violation regardless of the tool name and of the other arguments; when
`turnIndex ≥ maxTurns - 1` the turn-budget violation takes precedence
instead. -/
theorem c3_tool_call_budget (o : ToolCallPolicyInput)
    (h : o.toolCalls = o.maxToolCalls) :
    (o.turnIndex < o.maxTurns - 1 →
      getToolCallPolicyViolation o =
        some (toolCallBudgetMessage o.toolCalls o.maxToolCalls)) ∧
    (o.maxTurns - 1 ≤ o.turnIndex →
      getToolCallPolicyViolation o =
        some (turnBudgetMessage o.turnIndex o.maxTurns)) := by
  constructor
  · intro hlt
    unfold getToolCallPolicyViolation
    rw [if_neg (by omega), if_pos (by omega)]
  · intro hge
    unfold getToolCallPolicyViolation
    rw [if_pos hge]

/-- C3 witness: a concrete exhausted tool-call budget before the final turn
is reported as the tool-call-budget violation. -/
theorem c3_tool_call_budget_witness :
    getToolCallPolicyViolation
        ⟨"bash", emptyToolInput, 0, 5, 8, 5, ⟨"/w", ["/w"], []⟩⟩ =
      some (toolCallBudgetMessage 5 5) :=
  (c3_tool_call_budget ⟨"bash", emptyToolInput, 0, 5, 8, 5, ⟨"/w", ["/w"], []⟩⟩ rfl).1
    (by decide)

/-! ## C2 -/

/-- C2 counterexample: an unsafe find pattern (`../secret` has a
parent-directory segment) with an empty scope (no allowed roots, no allowed
files) produces no violation, because the empty-scope check short-circuits
before the pattern checks — contradicting "for every scope". -/
theorem c2_empty_scope_counterexample :
    hasUnsafeGlobSegments "../secret" = true ∧
      getToolCallPolicyViolation
          ⟨"find", ⟨none, none, some "../secret", none⟩, 0, 0, 8, 40, ⟨"/w", [], []⟩⟩ =
        none := by
  refine ⟨by decide, rfl⟩

/-- C2 (amended): a find `pattern` / grep `glob` that is absolute or has a
parent-directory segment always yields a violation provided the scope has
at least one allowed root or allowed file; with both scope lists empty the
check is skipped and no violation is reported. -/
theorem c2_bad_glob_violates (o : ToolCallPolicyInput) (p : String)
    (hpat : (o.toolName = "find" ∧ o.input.pattern = some p) ∨
      (o.toolName = "grep" ∧ o.input.glob = some p))
    (hbad : hasUnsafeGlobSegments p = true)
    (hscope : o.scope.allowedRoots ≠ [] ∨ o.scope.allowedFiles ≠ []) :
    getToolCallPolicyViolation o ≠ none := by
  unfold getToolCallPolicyViolation
  by_cases h1 : o.maxTurns - 1 ≤ o.turnIndex
  · rw [if_pos h1]; simp
  rw [if_neg h1]
  by_cases h2 : o.maxToolCalls ≤ o.toolCalls
  · rw [if_pos h2]; simp
  rw [if_neg h2]
  have hmem : policyTools.contains o.toolName = true := by
    rcases hpat with ⟨ht, _⟩ | ⟨ht, _⟩ <;> rw [ht] <;> decide
  rw [if_neg (show ¬¬(policyTools.contains o.toolName = true) from fun hn => hn hmem)]
  rw [if_neg (by tauto)]
  rcases hpat with ⟨ht, hp⟩ | ⟨ht, hg⟩
  · have hbf : badFindPattern o.toolName o.input.pattern = some p := by
      rw [ht, hp]
      simp [badFindPattern, hbad]
    simp [hbf]
  · have hbf : badFindPattern o.toolName o.input.pattern = none := by
      rw [ht]
      simp [badFindPattern]
    have hbg : badGrepGlob o.toolName o.input.glob = some p := by
      rw [ht, hg]
      simp [badGrepGlob, hbad]
    simp [hbf, hbg]

/-- C2 witness: a parent-directory find pattern inside a non-empty scope is
rejected even though its literal target would resolve inside the allowed
root. -/
theorem c2_bad_glob_violates_witness :
    getToolCallPolicyViolation
        ⟨"find", ⟨some ".", none, some "sub/../sub", none⟩, 0, 0, 8, 40,
          ⟨"/w", ["/w"], []⟩⟩ ≠ none :=
  c2_bad_glob_violates
    ⟨"find", ⟨some ".", none, some "sub/../sub", none⟩, 0, 0, 8, 40, ⟨"/w", ["/w"], []⟩⟩
    "sub/../sub" (Or.inl ⟨rfl, rfl⟩) (by decide) (Or.inl (by decide))

/-! ## C5 -/

/-- C5: when the policy checker reports a violation on the final allowed
turn (`turnIndex ≥ maxTurns - 1`), the hook blocks just that call —
recording the reason in `turnBudgetBlocked` (first report wins) and not
requesting a session abort; before the final turn it records the reason in
`violation` (first report wins), blocks the call, and requests an immediate
session abort. -/
theorem c5_hook_asymmetry (scope : ResolvedScope) (maxTurns maxToolCalls : Int)
    (st : ReplicantPolicyState) (toolName : String) (input : ToolInput) (v : String)
    (hv : getToolCallPolicyViolation
      ⟨toolName, input, st.turnIndex, st.toolCalls, maxTurns, maxToolCalls, scope⟩ = some v) :
    (maxTurns - 1 ≤ st.turnIndex →
      toolCallHook scope maxTurns maxToolCalls st toolName input =
        ({ st with turnBudgetBlocked := some (st.turnBudgetBlocked.getD v) },
         ⟨true, some v, false⟩)) ∧
    (st.turnIndex < maxTurns - 1 →
      toolCallHook scope maxTurns maxToolCalls st toolName input =
        ({ st with violation := some (st.violation.getD v) },
         ⟨true, some v, true⟩)) := by
  constructor
  · intro h
    simp only [toolCallHook, hv, if_pos h]
  · intro h
    simp only [toolCallHook, hv,
      if_neg (show ¬ (maxTurns - 1 ≤ st.turnIndex) by omega)]

/-- C5 witness: on the final allowed turn a violation is soft-blocked
(recorded in `turnBudgetBlocked`, no abort requested). -/
theorem c5_hook_asymmetry_witness :
    toolCallHook ⟨"/w", ["/w"], []⟩ 3 40 ⟨5, 0, none, none⟩ "read" emptyToolInput =
      (⟨5, 0, none, some (turnBudgetMessage 5 3)⟩,
       ⟨true, some (turnBudgetMessage 5 3), false⟩) :=
  (c5_hook_asymmetry ⟨"/w", ["/w"], []⟩ 3 40 ⟨5, 0, none, none⟩ "read" emptyToolInput
    (turnBudgetMessage 5 3) rfl).1 (by decide)

/-! ## C10 -/

/-- C10: an omitted, NaN, infinite, or non-positive `maxTurns`
(`maxToolCalls`) falls back to the default 8 (40); a finite positive value
is floored; and the effective values are exactly the ones recorded in the
initial `details` record and handed to the session factory (and through it
to the policy extension). -/
theorem c10_effective_budgets (mt mtc : Option JsNum) (q r : ℚ) :
    ((initialDetails mt mtc).maxTurns = effectiveMaxTurns mt ∧
     (initialDetails mt mtc).maxToolCalls = effectiveMaxToolCalls mtc ∧
     factoryBudgets mt mtc =
       ((initialDetails mt mtc).maxTurns, (initialDetails mt mtc).maxToolCalls)) ∧
    ((mt = none ∨ mt = some .nan ∨ mt = some .posInf ∨ mt = some .negInf) →
      effectiveMaxTurns mt = 8) ∧
    (mt = some (.fin q) → q ≤ 0 → effectiveMaxTurns mt = 8) ∧
    (mt = some (.fin q) → 0 < q → effectiveMaxTurns mt = q.floor) ∧
    ((mtc = none ∨ mtc = some .nan ∨ mtc = some .posInf ∨ mtc = some .negInf) →
      effectiveMaxToolCalls mtc = 40) ∧
    (mtc = some (.fin r) → r ≤ 0 → effectiveMaxToolCalls mtc = 40) ∧
    (mtc = some (.fin r) → 0 < r → effectiveMaxToolCalls mtc = r.floor) := by
  refine ⟨⟨rfl, rfl, rfl⟩, ?_, ?_, ?_, ?_, ?_, ?_⟩
  · rintro (rfl | rfl | rfl | rfl) <;> rfl
  · rintro rfl hq
    simp [effectiveMaxTurns, effectiveBudget, DEFAULT_MAX_TURNS, not_lt.mpr hq]
  · rintro rfl hq
    simp [effectiveMaxTurns, effectiveBudget, hq]
  · rintro (rfl | rfl | rfl | rfl) <;> rfl
  · rintro rfl hr
    simp [effectiveMaxToolCalls, effectiveBudget, DEFAULT_MAX_TOOL_CALLS, not_lt.mpr hr]
  · rintro rfl hr
    simp [effectiveMaxToolCalls, effectiveBudget, hr]

/-- C10 witness: a fractional `maxTurns` of 9/2 is floored to 4, and a NaN
`maxToolCalls` falls back to 40. -/
theorem c10_effective_budgets_witness :
    effectiveMaxTurns (some (.fin (mkRat 9 2))) = 4 ∧
      effectiveMaxToolCalls (some .nan) = 40 := by
  have h := c10_effective_budgets (some (.fin (mkRat 9 2))) (some .nan) (mkRat 9 2) 0
  refine ⟨?_, h.2.2.2.2.1 (Or.inr (Or.inl rfl))⟩
  rw [h.2.2.2.1 rfl (by decide)]
  decide

/-! ## C1 -/

/-- C1: for the path-sensitive tools, within both budgets, with a non-empty
scope and no unsafe find pattern or grep glob, the checker allows the call
precisely when the path argument (field `path`, else `file_path`, else the
current directory `"."`), resolved against the scope's working directory,
lies within some allowed root under `isWithinPath` (a path equal to a root
counts as inside it: `isWithinPath root root` always holds) or equals some
allowed file; otherwise it reports the out-of-scope violation naming the
offending path. -/
theorem c1_scope_policy (o : ToolCallPolicyInput) (root0 : String)
    (htool : o.toolName ∈ policyTools)
    (hturn : o.turnIndex < o.maxTurns - 1)
    (hcalls : o.toolCalls < o.maxToolCalls)
    (hscope : o.scope.allowedRoots ≠ [] ∨ o.scope.allowedFiles ≠ [])
    (hfind : ¬ (o.toolName = "find" ∧
      ∃ p, o.input.pattern = some p ∧ hasUnsafeGlobSegments p = true))
    (hgrep : ¬ (o.toolName = "grep" ∧
      ∃ g, o.input.glob = some g ∧ hasUnsafeGlobSegments g = true)) :
    (getToolCallPolicyViolation o = none ↔
      ((∃ root ∈ o.scope.allowedRoots,
          isWithinPath (pathResolve o.scope.cwd (normalizeToolPath (rawPathOf o.input))) root
            = true) ∨
        pathResolve o.scope.cwd (normalizeToolPath (rawPathOf o.input))
          ∈ o.scope.allowedFiles)) ∧
    (getToolCallPolicyViolation o ≠ none →
      getToolCallPolicyViolation o =
        some (outOfScopeMessage o.toolName (rawPathOf o.input)
          o.scope.allowedRoots o.scope.allowedFiles)) ∧
    isWithinPath root0 root0 = true := by
  have hbf : badFindPattern o.toolName o.input.pattern = none := by
    unfold badFindPattern
    by_cases ht : o.toolName = "find"
    · rw [if_pos ht]
      cases hp : o.input.pattern with
      | none => rfl
      | some p =>
        have hu : ¬ hasUnsafeGlobSegments p = true := fun hu => hfind ⟨ht, p, hp, hu⟩
        simp [hu]
    · rw [if_neg ht]
  have hbg : badGrepGlob o.toolName o.input.glob = none := by
    unfold badGrepGlob
    by_cases ht : o.toolName = "grep"
    · rw [if_pos ht]
      cases hg : o.input.glob with
      | none => rfl
      | some g =>
        have hu : ¬ hasUnsafeGlobSegments g = true := fun hu => hgrep ⟨ht, g, hg, hu⟩
        simp [hu]
    · rw [if_neg ht]
  have hmem : policyTools.contains o.toolName = true := by
    simpa [List.elem_iff] using htool
  have hv : getToolCallPolicyViolation o =
      if (o.scope.allowedRoots.any fun root =>
            isWithinPath (pathResolve o.scope.cwd (normalizeToolPath (rawPathOf o.input))) root)
          || (o.scope.allowedFiles.any fun file =>
            pathResolve o.scope.cwd (normalizeToolPath (rawPathOf o.input)) == file) then
        none
      else
        some (outOfScopeMessage o.toolName (rawPathOf o.input)
          o.scope.allowedRoots o.scope.allowedFiles) := by
    unfold getToolCallPolicyViolation
    rw [if_neg (by omega), if_neg (by omega),
      if_neg (show ¬¬(policyTools.contains o.toolName = true) from fun hn => hn hmem),
      if_neg (by tauto)]
    simp only [hbf, hbg]
  refine ⟨?_, ?_, isWithinPath_self root0⟩
  · rw [hv]
    by_cases hin : (o.scope.allowedRoots.any fun root =>
          isWithinPath (pathResolve o.scope.cwd (normalizeToolPath (rawPathOf o.input))) root)
        || (o.scope.allowedFiles.any fun file =>
          pathResolve o.scope.cwd (normalizeToolPath (rawPathOf o.input)) == file)
    · rw [if_pos hin]
      simp only [Bool.or_eq_true, List.any_eq_true, beq_iff_eq] at hin
      simp only [true_iff]
      rcases hin with h | h
      · exact Or.inl h
      · exact Or.inr (by rcases h with ⟨f, hf, rfl⟩; exact hf)
    · rw [if_neg hin]
      simp only [Bool.or_eq_true, List.any_eq_true, beq_iff_eq] at hin
      push_neg at hin
      constructor
      · intro h; exact absurd h (by simp)
      · rintro (⟨root, hr, hw⟩ | hf)
        · exact absurd hw (hin.1 root hr)
        · exact absurd rfl (hin.2 _ hf)
  · intro hne
    rw [hv] at hne ⊢
    by_cases hin : (o.scope.allowedRoots.any fun root =>
          isWithinPath (pathResolve o.scope.cwd (normalizeToolPath (rawPathOf o.input))) root)
        || (o.scope.allowedFiles.any fun file =>
          pathResolve o.scope.cwd (normalizeToolPath (rawPathOf o.input)) == file)
    · rw [if_pos hin] at hne; exact absurd rfl hne
    · rw [if_neg hin]

/-- C1 witness: a read of `repo/a.txt` from `/w` with allowed root
`/w/repo` is in scope and allowed. -/
theorem c1_scope_policy_witness :
    getToolCallPolicyViolation
        ⟨"read", ⟨some "repo/a.txt", none, none, none⟩, 0, 0, 8, 40,
          ⟨"/w", ["/w/repo"], []⟩⟩ = none :=
  ((c1_scope_policy
      ⟨"read", ⟨some "repo/a.txt", none, none, none⟩, 0, 0, 8, 40, ⟨"/w", ["/w/repo"], []⟩⟩
      "/w/repo" (by decide) (by decide) (by decide) (Or.inl (by decide))
      (by rintro ⟨h, -⟩; exact absurd h (by decide))
      (by rintro ⟨h, -⟩; exact absurd h (by decide))).1).mpr
    (Or.inl ⟨"/w/repo", by decide, by decide⟩)

/-! ## C4 -/

/-- C4: once the prompt call settles, the terminal outcome follows exactly
the spec's priority order — (1) recorded policy violation → error with the
violation text; (2) fired cancellation signal → aborted error; (3) prompt
exception → error; (4) whitespace-only final text with a recorded
turn-budget block → error with the block text; (5) stop reason `error` →
error; (6) stop reason `aborted` → aborted error; (7) otherwise done with
exit code 0. -/
theorem c4_settle_priority (maxBytes maxLines : Nat) (s : SettledState) :
    settleReplicantRun maxBytes maxLines s = specSettlePriority maxBytes maxLines s := by
  obtain ⟨v, ab, pe, ft, tb, sr, em⟩ := s
  cases v with
  | some v => simp [settleReplicantRun, specSettlePriority, firstRule]
  | none =>
    cases ab <;> cases pe <;> cases tb <;>
      by_cases hft : jsTrim ft = "" <;>
        simp [settleReplicantRun, specSettlePriority, firstRule, settleAfterBudget, hft]

/-! ## C6 -/

theorem truncateHead_within (s : String) (mb ml : Nat)
    (h1 : lineCount s ≤ ml) (h2 : utf8Len s ≤ mb) :
    truncateHead s mb ml = ⟨s, false⟩ := by
  unfold truncateHead
  dsimp only
  rw [if_pos ⟨h1, h2⟩]

theorem truncateHead_over (s : String) (mb ml : Nat)
    (h : ¬ (lineCount s ≤ ml ∧ utf8Len s ≤ mb)) :
    truncateHead s mb ml =
      ⟨String.mk (takeBytesAux (joinSep '\n' ((splitChar '\n' s.data).take ml)) mb), true⟩ := by
  unfold truncateHead
  dsimp only
  exact if_neg h

theorem truncateHead_content_utf8 (s : String) (mb ml : Nat)
    (h : ¬ (lineCount s ≤ ml ∧ utf8Len s ≤ mb)) :
    utf8Len (truncateHead s mb ml).content ≤ mb := by
  rw [truncateHead_over s mb ml h]
  exact utf8LenL_takeBytesAux _ mb

theorem truncateHead_content_lines (s : String) (mb ml : Nat) (hml : 1 ≤ ml)
    (h : ¬ (lineCount s ≤ ml ∧ utf8Len s ≤ mb)) :
    lineCount (truncateHead s mb ml).content ≤ ml := by
  rw [truncateHead_over s mb ml h]
  have hne : (splitChar '\n' s.data).take ml ≠ [] := by
    rw [Ne, List.take_eq_nil_iff]
    push_neg
    exact ⟨by omega, splitChar_ne_nil '\n' s.data⟩
  have hfree : ∀ p ∈ (splitChar '\n' s.data).take ml, '\n' ∉ p := fun p hp =>
    not_mem_of_mem_splitChar '\n' s.data p (List.mem_of_mem_take hp)
  have hcount : (joinSep '\n' ((splitChar '\n' s.data).take ml)).count '\n' =
      ((splitChar '\n' s.data).take ml).length - 1 :=
    joinSep_count_eq '\n' _ hne hfree
  have hkl : ((splitChar '\n' s.data).take ml).length ≤ ml := by
    simp
  have hklpos : 1 ≤ ((splitChar '\n' s.data).take ml).length :=
    List.length_pos.mpr hne
  have hclip : (takeBytesAux (joinSep '\n' ((splitChar '\n' s.data).take ml)) mb).count '\n' ≤
      (joinSep '\n' ((splitChar '\n' s.data).take ml)).count '\n' :=
    (takeBytesAuxIsPrefix _ mb).sublist.count_le '\n'
  show (splitChar '\n' (takeBytesAux (joinSep '\n' ((splitChar '\n' s.data).take ml)) mb)).length ≤ ml
  rw [splitChar_length]
  omega

theorem truncateHead_content_isPrefix (s : String) (mb ml : Nat)
    (h : ¬ (lineCount s ≤ ml ∧ utf8Len s ≤ mb)) :
    (truncateHead s mb ml).content.data <+: s.data := by
  rw [truncateHead_over s mb ml h]
  have h1 : takeBytesAux (joinSep '\n' ((splitChar '\n' s.data).take ml)) mb <+:
      joinSep '\n' ((splitChar '\n' s.data).take ml) := takeBytesAuxIsPrefix _ mb
  have h2 : joinSep '\n' ((splitChar '\n' s.data).take ml) <+: joinSep '\n' (splitChar '\n' s.data) :=
    joinSepTakeIsPrefix '\n' (splitChar '\n' s.data) ml
  rw [joinSep_splitChar] at h2
  exact h1.trans h2

theorem settle_completed_inv (mb ml : Nat) (s : SettledState) (out : String)
    (tr : Bool) (ec : Int)
    (h : settleReplicantRun mb ml s = .completed out tr ec) :
    successOutcome mb ml s.finalText = .completed out tr ec := by
  unfold settleReplicantRun settleAfterBudget at h
  repeat' split at h
  all_goals first
    | exact h
    | simp at h

/-- C6 counterexample: on the successful path, an empty final text — which
is at (below) any positive ceiling — is not returned unmodified; it is
replaced by the placeholder `"(no output)"`. -/
theorem c6_empty_text_counterexample :
    settleReplicantRun 16384 1000 ⟨none, false, none, "", none, none, none⟩ =
      .completed "(no output)" false 0 ∧ ("(no output)" : String) ≠ "" := by
  exact ⟨rfl, by decide⟩

/-- C6 (amended): on the successful path the run exits with code 0; final
text over the byte/line ceiling is head-truncated (the kept content is a
prefix of the original, within both ceilings) with the truncation marker
appended and the truncation flag true; non-empty final text within the
ceiling is returned unmodified with the flag false; empty final text is
replaced by the placeholder `"(no output)"` (unmarked, flag false). -/
theorem c6_final_text_truncation (mb ml : Nat) (s : SettledState) (out : String)
    (tr : Bool) (ec : Int) (hml : 1 ≤ ml) (hmb : 11 ≤ mb)
    (hrun : settleReplicantRun mb ml s = .completed out tr ec) :
    ec = 0 ∧
    (s.finalText = "" → out = "(no output)" ∧ tr = false) ∧
    (s.finalText ≠ "" → lineCount s.finalText ≤ ml → utf8Len s.finalText ≤ mb →
      out = s.finalText ∧ tr = false) ∧
    (¬ (lineCount s.finalText ≤ ml ∧ utf8Len s.finalText ≤ mb) →
      tr = true ∧
      out = (truncateHead s.finalText mb ml).content ++ "\n\n[replicant output truncated]" ∧
      utf8Len (truncateHead s.finalText mb ml).content ≤ mb ∧
      lineCount (truncateHead s.finalText mb ml).content ≤ ml ∧
      (truncateHead s.finalText mb ml).content.data <+: s.finalText.data) := by
  have hs := settle_completed_inv mb ml s out tr ec hrun
  unfold successOutcome at hs
  dsimp only at hs
  by_cases hft : s.finalText = ""
  · rw [if_pos hft] at hs
    have hwithin : truncateHead "(no output)" mb ml = ⟨"(no output)", false⟩ := by
      apply truncateHead_within
      · have h1 : lineCount "(no output)" = 1 := by decide
        omega
      · have h2 : utf8Len "(no output)" = 11 := by decide
        omega
    rw [hwithin] at hs
    simp only [RunOutcome.completed.injEq] at hs
    rcases hs with ⟨rfl, rfl, rfl⟩
    refine ⟨rfl, fun _ => ⟨rfl, rfl⟩, fun hne => absurd hft hne, fun hover => ?_⟩
    exfalso
    apply hover
    rw [hft]
    constructor
    · have h1 : lineCount "" = 1 := by decide
      omega
    · have h2 : utf8Len "" = 0 := by decide
      omega
  · rw [if_neg hft] at hs
    by_cases hin : lineCount s.finalText ≤ ml ∧ utf8Len s.finalText ≤ mb
    · rw [truncateHead_within _ mb ml hin.1 hin.2] at hs
      simp only [RunOutcome.completed.injEq] at hs
      rcases hs with ⟨rfl, rfl, rfl⟩
      exact ⟨rfl, fun h => absurd h hft, fun _ _ _ => ⟨rfl, rfl⟩,
        fun hover => absurd hin hover⟩
    · have hov := truncateHead_over s.finalText mb ml hin
      rw [hov] at hs
      simp only [RunOutcome.completed.injEq] at hs
      rcases hs with ⟨rfl, rfl, rfl⟩
      refine ⟨rfl, fun h => absurd h hft, fun _ h1 h2 => absurd ⟨h1, h2⟩ hin,
        fun _ => ⟨rfl, ?_, truncateHead_content_utf8 _ _ _ hin,
          truncateHead_content_lines _ _ _ hml hin, truncateHead_content_isPrefix _ _ _ hin⟩⟩
      rw [hov]

/-- C6 witness: final text of four lines against a two-line ceiling is
head-truncated within the ceiling and completed marked as truncated. -/
theorem c6_final_text_truncation_witness :
    utf8Len (truncateHead "a\nb\nc\nd" 20 2).content ≤ 20 ∧
      lineCount (truncateHead "a\nb\nc\nd" 20 2).content ≤ 2 ∧
      settleReplicantRun 20 2 ⟨none, false, none, "a\nb\nc\nd", none, none, none⟩ =
        .completed ((truncateHead "a\nb\nc\nd" 20 2).content ++ "\n\n[replicant output truncated]")
          true 0 := by
  have h := c6_final_text_truncation 20 2 ⟨none, false, none, "a\nb\nc\nd", none, none, none⟩
    ((truncateHead "a\nb\nc\nd" 20 2).content ++ "\n\n[replicant output truncated]") true 0
    (by decide) (by decide) (by decide)
  have h4 := h.2.2.2 (by decide)
  exact ⟨h4.2.2.1, h4.2.2.2.1, by decide⟩

/-! ## C7 -/

/-- C7: in a non-interactive context (`hasUI = false`) with no usable hint,
a map search that returns two or more candidates makes the whole resolution
fail with the `repo_ambiguous` error — no candidate is selected, whatever
the scores — while a search returning exactly one candidate short-circuits
disambiguation and selects that candidate. -/
theorem c7_non_interactive_ambiguity (w : OwWorld) (task : String)
    (cands : List SearchCandidate) (c : SearchCandidate)
    (hUI : w.hasUI = false) (hOw : w.owOk = true)
    (hSearch : w.searchResult (extractSearchTerm task) = .ok cands) :
    (2 ≤ cands.length →
      resolveRepoWithOffworld w task none = .error ambiguousNonInteractiveError ∧
        ambiguousNonInteractiveError.code = .repo_ambiguous) ∧
    (cands = [c] → selectCandidate w.hasUI w.selectPick cands = .ok c) := by
  constructor
  · intro hlen
    refine ⟨?_, rfl⟩
    have hsel : selectCandidate w.hasUI w.selectPick cands = .error ambiguousNonInteractiveError := by
      unfold selectCandidate
      rw [dif_neg (by omega)]
      rw [hUI]
      simp
    have hvia : resolveViaSearch w task = .error ambiguousNonInteractiveError := by
      unfold resolveViaSearch mapSearchW
      dsimp only
      rw [hSearch]
      dsimp only
      rw [if_neg (by omega), hsel]
    unfold resolveRepoWithOffworld
    rw [if_neg (by simp [hOw])]
    dsimp only
    rw [show truthy none = false from rfl]
    simp only [Bool.false_eq_true, if_false, hvia]
  · rintro rfl
    unfold selectCandidate
    exact dif_pos rfl

/-- C7 witness: two candidates scored 97 and 11 in non-interactive mode
fail as ambiguous despite the dominant score, while a lone candidate is
selected outright. -/
theorem c7_non_interactive_ambiguity_witness :
    (resolveRepoWithOffworld twoCandidateWorld "inspect pacer" none =
        .error ambiguousNonInteractiveError ∧
      ambiguousNonInteractiveError.code = .repo_ambiguous) ∧
      selectCandidate oneCandidateWorld.hasUI oneCandidateWorld.selectPick [candA] = .ok candA :=
  ⟨(c7_non_interactive_ambiguity twoCandidateWorld "inspect pacer" [candA, candB] candA
      rfl rfl rfl).1 (by decide),
   (c7_non_interactive_ambiguity oneCandidateWorld "inspect pacer" [candA] candA
      rfl rfl rfl).2 rfl⟩

/-! ## C8 -/

theorem finalize_ok_ref (stat : String → Option FileKind) (entry : MapShowJson)
    (er : String) (rf : ResolvedFrom) (sc : List (String × Int)) (r : ResolvedRepo)
    (h : finalizeResolvedRepo stat entry er rf sc = .ok r) :
    r.resolvedFrom = rf ∧
      (r.referencePath = "" ∨
        (strEndsWith r.referencePath "/" = false ∧ strEndsWith r.referencePath "\\" = false ∧
          pathIsFile stat r.referencePath = true)) := by
  unfold finalizeResolvedRepo at h
  dsimp only at h
  split at h
  · exact absurd h (by simp)
  · simp only [Except.ok.injEq] at h
    subst h
    refine ⟨rfl, ?_⟩
    dsimp only
    by_cases hro : ((entry.referencePath.getD "").length > 0 &&
        !strEndsWith (entry.referencePath.getD "") "/" &&
        !strEndsWith (entry.referencePath.getD "") "\\" &&
        pathIsFile stat (entry.referencePath.getD "")) = true
    · rw [if_pos hro]
      right
      simp only [Bool.and_eq_true, Bool.not_eq_true'] at hro
      exact ⟨hro.1.1.2, hro.1.2, hro.2⟩
    · rw [if_neg hro]
      left
      rfl

theorem finalize_isOk_ref (stat : String → Option FileKind) (entry : MapShowJson)
    (er : String) (rf : ResolvedFrom) (sc : List (String × Int)) (rp : Option String) :
    (finalizeResolvedRepo stat { entry with referencePath := rp } er rf sc).isOk =
      (finalizeResolvedRepo stat entry er rf sc).isOk := by
  unfold finalizeResolvedRepo
  dsimp only
  cases hc : (decide ((entry.localPath.getD "").length > 0) &&
      pathLooksLikeClone stat (entry.localPath.getD "")) <;>
    simp [hc, Except.isOk, Except.toBool]

theorem mapShowW_map (oracle : String → OwCall MapShowJson)
    (g : String → MapShowJson → MapShowJson) (repo : String) :
    mapShowW (fun rp => (oracle rp).map (g rp)) repo =
      (mapShowW oracle repo).map (g repo) := by
  unfold mapShowW
  dsimp only
  cases h : oracle repo <;> simp [h, OwCall.map, Except.map]

theorem pullStage_setRefPath (w : OwWorld) (f : String → Option String) (er : String) :
    pullStage (setRefPath w f) er =
      (pullStage w er).map fun pr => ({ pr.1 with referencePath := f er }, pr.2) := by
  unfold pullStage mapShowW
  dsimp only [setRefPath]
  by_cases h1 : (w.hasUI && !w.confirmPull) = true
  · rw [if_pos h1, if_pos h1]
    rfl
  · rw [if_neg h1, if_neg h1]
    by_cases h2 : (!w.pullOk er) = true
    · rw [if_pos h2, if_pos h2]
      rfl
    · rw [if_neg h2, if_neg h2]
      cases h : w.show2 er <;> simp [OwCall.map, Except.map]

theorem resolveViaSearch_setRefPath (w : OwWorld) (f : String → Option String) (task : String) :
    resolveViaSearch (setRefPath w f) task = resolveViaSearch w task := rfl

theorem setRefPath_stat1 (w : OwWorld) (f : String → Option String) :
    (setRefPath w f).stat1 = w.stat1 := rfl

theorem setRefPath_stat2 (w : OwWorld) (f : String → Option String) :
    (setRefPath w f).stat2 = w.stat2 := rfl

/-- C8: a successfully resolved repository never carries a reference path
that ends in a path separator or does not stat as a regular file in the
snapshot the resolver validated against (such paths are replaced by the
empty string), and replacing the map entries' reference paths never changes
whether resolution succeeds. -/
theorem c8_reference_path (w : OwWorld) (task : String) (hint0 : Option String)
    (r : ResolvedRepo) (f : String → Option String) :
    (resolveRepoWithOffworld w task hint0 = .ok r →
      r.referencePath = "" ∨
        (strEndsWith r.referencePath "/" = false ∧ strEndsWith r.referencePath "\\" = false ∧
          pathIsFile (match r.resolvedFrom with
            | .pulled => w.stat2
            | .existing => w.stat1) r.referencePath = true)) ∧
    (resolveRepoWithOffworld (setRefPath w f) task hint0).isOk =
      (resolveRepoWithOffworld w task hint0).isOk := by
  constructor
  · intro hok
    unfold resolveRepoWithOffworld at hok
    split at hok
    · exact absurd hok (by simp)
    · dsimp only at hok
      split at hok
      · exact absurd hok (by simp)
      · split at hok
        · exact absurd hok (by simp)
        · split at hok
          · exact absurd hok (by simp)
          · split at hok
            · exact absurd hok (by simp)
            · split at hok
              · exact absurd hok (by simp)
              · rename_i entry pulled _
                obtain ⟨hrf, href⟩ := finalize_ok_ref _ _ _ _ _ r hok
                cases pulled
                · simp only [Bool.false_eq_true, if_false] at hrf href
                  rw [hrf]
                  exact href
                · simp only [if_true] at hrf href
                  rw [hrf]
                  exact href
  · unfold resolveRepoWithOffworld
    rw [show (setRefPath w f).owOk = w.owOk from rfl]
    by_cases hw : w.owOk = true
    · have hnw : ¬ ¬ w.owOk = true := fun hh => hh hw
      rw [if_neg hnw, if_neg hnw]
      dsimp only
      rw [resolveViaSearch_setRefPath]
      cases hD : (if truthy hint0 = true then
          Except.ok (hint0.getD "", ([] : List (String × Int)))
        else resolveViaSearch w task) with
      | error e => rfl
      | ok pr =>
        obtain ⟨sel, sc⟩ := pr
        dsimp only
        by_cases hsel : sel = ""
        · rw [if_pos hsel, if_pos hsel]
        · rw [if_neg hsel, if_neg hsel]
          rw [show mapShowW (setRefPath w f).show1 sel =
              (mapShowW w.show1 sel).map ((fun rp m => { m with referencePath := f rp }) sel) from
            mapShowW_map w.show1 (fun rp m => { m with referencePath := f rp }) sel]
          cases hS : mapShowW w.show1 sel with
          | error e => rfl
          | ok m =>
            dsimp only [Except.map]
            simp only [setRefPath_stat1, setRefPath_stat2]
            by_cases hfound : m.found = true
            · have hnf : ¬ ¬ m.found = true := fun hh => hh hfound
              rw [if_neg hnf, if_neg hnf]
              by_cases hclone :
                  (match m.localPath with
                    | some lp => if lp = "" then false else pathLooksLikeClone w.stat1 lp
                    | none => false) = true
              · rw [if_pos hclone, if_pos hclone]
                exact finalize_isOk_ref w.stat1 m _ _ sc (f sel)
              · rw [if_neg hclone, if_neg hclone]
                rw [pullStage_setRefPath]
                cases hP : pullStage w (toRepoSlug (.fromShow m.qualifiedName)) with
                | error e => rfl
                | ok pr2 =>
                  obtain ⟨m2, pulled⟩ := pr2
                  dsimp only [Except.map]
                  cases pulled
                  · exact finalize_isOk_ref w.stat1 m2 _ _ sc _
                  · exact finalize_isOk_ref w.stat2 m2 _ _ sc _
            · rw [if_pos hfound, if_pos hfound]
    · have hpw : ¬ w.owOk = true := hw
      rw [if_pos hpw, if_pos hpw]

/-- C8 witness: a world with a valid clone and a valid regular-file
reference path resolves successfully, the reference path stats as a file,
and rewriting the reference paths does not affect success. -/
theorem c8_reference_path_witness :
    resolveRepoWithOffworld clonedWorld "t" (some "acme/repo") = .ok clonedWorldResult ∧
      (clonedWorldResult.referencePath = "" ∨
        (strEndsWith clonedWorldResult.referencePath "/" = false ∧
          strEndsWith clonedWorldResult.referencePath "\\" = false ∧
          pathIsFile clonedWorld.stat1 clonedWorldResult.referencePath = true)) ∧
      (resolveRepoWithOffworld (setRefPath clonedWorld fun _ => none) "t"
          (some "acme/repo")).isOk =
        (resolveRepoWithOffworld clonedWorld "t" (some "acme/repo")).isOk := by
  have h := c8_reference_path clonedWorld "t" (some "acme/repo") clonedWorldResult
    (fun _ => none)
  exact ⟨rfl, h.1 rfl, h.2⟩
